import Mathlib

/-!
Shallow embedding of the Riemann-sum core of `src/intg.py` (Integration
Visualization App).

The core of the program (lines 24-49 of `src/intg.py`) is:

* an expression-normalization step: `sp.sympify` / `sp.lambdify` wrapped in a
  `try/except (SympifyError, TypeError)` that falls back to the zero function;
* a summation pipeline over numpy arrays:
  `x_vals = np.linspace(a, b, n+1)`, `dx = (b - a) / n`, a four-way branch on
  the selected method giving `heights`, then `areas = heights * dx`,
  `cumulative = np.cumsum(areas)`, `total_integral = cumulative[-1]`.

Machine floats are modelled by exact rationals (`ℚ`); numpy arrays by `List ℚ`
with elementwise operations; the user function by `f : ℚ → ℚ`.  The failure
paths (sympy name resolution, Python division by zero) are modelled with
`Except String`.
-/

set_option autoImplicit false

/-- The four integration methods offered by the selectbox at line 20 of
`src/intg.py`: `["Left", "Right", "Midpoint", "Trapezoid"]`. -/
inductive Rule where
  | Left
  | Right
  | Midpoint
  | Trapezoid
  deriving DecidableEq, Repr

/-- Line 36 of `src/intg.py`: `dx = (b - a) / n`, over exact rationals.
(The Python expression raises `ZeroDivisionError` when `n = 0`; that failure
path is modelled separately by `dxE`.) -/
def dx (a b : ℚ) (n : ℕ) : ℚ := (b - a) / n

/-- Line 35 of `src/intg.py`: `x_vals = np.linspace(a, b, n+1)`.
`np.linspace(a, b, n+1)` returns the `n+1` points `a + i·(b-a)/n` for
`i = 0..n`, with the final point set to exactly `b` (which for rationals and
`n ≥ 1` coincides with the formula). -/
def x_vals (a b : ℚ) (n : ℕ) : List ℚ :=
  (List.range (n + 1)).map (fun i : ℕ => a + (i : ℚ) * ((b - a) / n))

/-- Lines 38-45 of `src/intg.py`: the four-way branch on `method` producing the
`heights` array.  `x_vals[:-1]` is `List.dropLast`, `x_vals[1:]` is
`List.drop 1`, numpy elementwise `+` and `/ 2` on equal-length arrays is
`List.zipWith`, and a vectorized call `f_lambdified(arr)` is `List.map f`. -/
def heights (f : ℚ → ℚ) (method : Rule) (xv : List ℚ) : List ℚ :=
  match method with
  | Rule.Left => xv.dropLast.map f
  | Rule.Right => (xv.drop 1).map f
  | Rule.Midpoint =>
      (List.zipWith (fun u v => (u + v) / 2) xv.dropLast (xv.drop 1)).map f
  | Rule.Trapezoid =>
      List.zipWith (fun u v => (u + v) / 2) (xv.dropLast.map f) ((xv.drop 1).map f)

/-- Line 47 of `src/intg.py`: `areas = heights * dx` (elementwise scaling of a
numpy array by the scalar `dx`). -/
def areas (hs : List ℚ) (d : ℚ) : List ℚ := hs.map (fun h => h * d)

/-- Running-accumulator recursion underlying `np.cumsum`. -/
def cumsumFrom (acc : ℚ) : List ℚ → List ℚ
  | [] => []
  | h :: t => (acc + h) :: cumsumFrom (acc + h) t

/-- Line 48 of `src/intg.py`: `cumulative = np.cumsum(areas)`, the inclusive
prefix sums of the input array (same length). -/
def cumsum (l : List ℚ) : List ℚ := cumsumFrom 0 l

/-- Line 49 of `src/intg.py`: `total_integral = cumulative[-1]`, the last entry
of the cumulative array.  (Python indexing `[-1]` on an empty array raises; for
`n ≥ 1` the array is nonempty, so the default value of `getLastD` is never
used.) -/
def total_integral (c : List ℚ) : ℚ := c.getLastD 0

/-- The record of arrays the core hands to the presentation layer. -/
structure IntegrationResult where
  partition : List ℚ
  heights : List ℚ
  areas : List ℚ
  cumulativeTrace : List ℚ
  total : ℚ
  deriving DecidableEq, Repr

/-- The whole calculations block, lines 35-49 of `src/intg.py`, as one pure
function of its inputs. -/
def integrate (f : ℚ → ℚ) (a b : ℚ) (n : ℕ) (method : Rule) : IntegrationResult :=
  let xv := x_vals a b n
  let d := dx a b n
  let hs := heights f method xv
  let ar := areas hs d
  let cum := cumsum ar
  { partition := xv
    heights := hs
    areas := ar
    cumulativeTrace := cum
    total := total_integral cum }

/-- Running the calculations block twice on identical inputs (the program has
no state feeding into lines 35-49 other than the five inputs). -/
def integrateTwice (f : ℚ → ℚ) (a b : ℚ) (n : ℕ) (method : Rule) :
    IntegrationResult × IntegrationResult :=
  (integrate f a b n method, integrate f a b n method)

/-! ## Error-path model

Lines 24-32 of `src/intg.py`:

```
try:
    func_sympy = sp.sympify(func_str)
    f_lambdified = sp.lambdify(x, func_sympy, modules=["numpy"])
    ...
except (sp.SympifyError, TypeError):
    st.error("Invalid function format. ...")
    f_lambdified = lambda x: np.zeros_like(x)
```

`sp.sympify` either parses the text into a symbolic expression or raises
`SympifyError`; its outcome is modelled by an `Option SymExpr` input (`none`
for a raised `SympifyError`/`TypeError`).  `sp.lambdify(x, e)` never inspects
the free symbols of `e`: it generates a Python function whose body mentions
every symbol of `e` by name, with only `x` bound as the parameter, so a free
symbol other than `x` raises `NameError` when the function is *called*, not
when it is built.  `evalSym` captures exactly that call-time semantics.
-/

/-- A symbolic expression as produced by `sp.sympify`: numeric literals, named
symbols, and arithmetic nodes (enough to express the spec's error-scenario
input `"y+1"`). -/
inductive SymExpr where
  | num : ℚ → SymExpr
  | var : String → SymExpr
  | add : SymExpr → SymExpr → SymExpr
  | mul : SymExpr → SymExpr → SymExpr
  deriving DecidableEq, Repr

/-- Call-time semantics of the function generated by `sp.lambdify(x, e)`: the
parameter is bound to the symbol named `x`; any other symbol is an unbound
Python name and raises `NameError` at the point of the call. -/
def evalSym : SymExpr → ℚ → Except String ℚ
  | SymExpr.num c, _ => Except.ok c
  | SymExpr.var s, xv =>
      if s = "x" then Except.ok xv
      else Except.error ("NameError: name " ++ s ++ " is not defined")
  | SymExpr.add e₁ e₂, xv =>
      match evalSym e₁ xv, evalSym e₂ xv with
      | Except.ok u, Except.ok v => Except.ok (u + v)
      | Except.error m, _ => Except.error m
      | _, Except.error m => Except.error m
  | SymExpr.mul e₁ e₂, xv =>
      match evalSym e₁ xv, evalSym e₂ xv with
      | Except.ok u, Except.ok v => Except.ok (u * v)
      | Except.error m, _ => Except.error m
      | _, Except.error m => Except.error m

/-- The callable the calculations block receives: the lambdified expression on
parse success, the fallback zero function (`lambda x: np.zeros_like(x)`) when
`sympify`/`lambdify` raised inside the `try`. -/
def f_lambdified (parsed : Option SymExpr) : ℚ → Except String ℚ :=
  match parsed with
  | some e => evalSym e
  | none => fun _ => Except.ok 0

/-- A vectorized call of a possibly-raising function over a numpy array:
either every entry evaluates and an array comes back, or the call raises. -/
def mapExcept (f : ℚ → Except String ℚ) : List ℚ → Except String (List ℚ)
  | [] => Except.ok []
  | h :: t =>
      match f h, mapExcept f t with
      | Except.ok v, Except.ok r => Except.ok (v :: r)
      | Except.error m, _ => Except.error m
      | _, Except.error m => Except.error m

/-- Lines 38-45 of `src/intg.py` when the callable may raise: the same four-way
branch as `heights`, with each vectorized call going through `mapExcept`. -/
def heightsE (f : ℚ → Except String ℚ) (method : Rule) (xv : List ℚ) :
    Except String (List ℚ) :=
  match method with
  | Rule.Left => mapExcept f xv.dropLast
  | Rule.Right => mapExcept f (xv.drop 1)
  | Rule.Midpoint =>
      mapExcept f (List.zipWith (fun u v => (u + v) / 2) xv.dropLast (xv.drop 1))
  | Rule.Trapezoid =>
      match mapExcept f xv.dropLast, mapExcept f (xv.drop 1) with
      | Except.ok l, Except.ok r =>
          Except.ok (List.zipWith (fun u v => (u + v) / 2) l r)
      | Except.error m, _ => Except.error m
      | _, Except.error m => Except.error m

/-- The calculations block run after normalization, propagating a raised
exception from the vectorized evaluation of the heights (lines 35-49 of
`src/intg.py`); returns the scalar `total_integral` on success. -/
def runPipeline (parsed : Option SymExpr) (a b : ℚ) (n : ℕ) (method : Rule) :
    Except String ℚ :=
  match heightsE (f_lambdified parsed) method (x_vals a b n) with
  | Except.ok hs => Except.ok (total_integral (cumsum (areas hs (dx a b n))))
  | Except.error m => Except.error m

/-- Python's `(b - a) / n` at line 36 with its failure path: float division by
zero raises `ZeroDivisionError`. -/
def dxE (a b : ℚ) (n : ℕ) : Except String ℚ :=
  if n = 0 then Except.error "ZeroDivisionError: float division by zero"
  else Except.ok ((b - a) / n)

/-- Line 19 of `src/intg.py`: `st.slider(..., min_value=1, max_value=500,
value=10)`.  The widget constrains the returned value to the closed interval
`[min_value, max_value]`. -/
def slider (minv maxv value : ℤ) : ℤ := max minv (min maxv value)

/-- The expression `sp.sympify("y+1")` evaluates to: the symbol `y` plus the
literal `1` (sympify succeeds on this well-formed text). -/
def yPlusOne : SymExpr := SymExpr.add (SymExpr.var "y") (SymExpr.num 1)

/-! ## Helper lemmas about the partition -/

theorem x_vals_length (a b : ℚ) (n : ℕ) : (x_vals a b n).length = n + 1 := by
  simp [x_vals]

theorem x_vals_getElem (a b : ℚ) (n : ℕ) {i : ℕ} (hi : i ≤ n) :
    (x_vals a b n)[i]? = some (a + (i : ℚ) * dx a b n) := by
  rw [x_vals, List.getElem?_map, List.getElem?_range (Nat.lt_succ_of_le hi)]
  rfl

theorem x_vals_dropLast (a b : ℚ) (n : ℕ) :
    (x_vals a b n).dropLast
      = (List.range n).map (fun i : ℕ => a + (i : ℚ) * dx a b n) := by
  rw [x_vals, List.range_succ, List.map_append]
  simp [dx]

theorem x_vals_drop_one (a b : ℚ) (n : ℕ) :
    (x_vals a b n).drop 1
      = (List.range n).map (fun i : ℕ => a + ((i + 1 : ℕ) : ℚ) * dx a b n) := by
  rw [x_vals, List.range_succ_eq_map, List.map_cons, List.drop_one, List.tail_cons,
    List.map_map]
  simp [dx, Function.comp]

theorem zipWith_map_same {α β γ : Type} (g : β → β → γ) (u v : α → β) (l : List α) :
    List.zipWith g (l.map u) (l.map v) = l.map (fun x => g (u x) (v x)) := by
  induction l with
  | nil => rfl
  | cons h t ih => simp [ih]

/-! ## The four heights arrays as maps over `List.range n` -/

theorem heights_left (f : ℚ → ℚ) (a b : ℚ) (n : ℕ) :
    heights f Rule.Left (x_vals a b n)
      = (List.range n).map (fun i : ℕ => f (a + (i : ℚ) * dx a b n)) := by
  simp only [heights]
  rw [x_vals_dropLast, List.map_map]
  rfl

theorem heights_right (f : ℚ → ℚ) (a b : ℚ) (n : ℕ) :
    heights f Rule.Right (x_vals a b n)
      = (List.range n).map (fun i : ℕ => f (a + ((i + 1 : ℕ) : ℚ) * dx a b n)) := by
  simp only [heights]
  rw [x_vals_drop_one, List.map_map]
  rfl

theorem heights_mid (f : ℚ → ℚ) (a b : ℚ) (n : ℕ) :
    heights f Rule.Midpoint (x_vals a b n)
      = (List.range n).map
          (fun i : ℕ =>
            f (((a + (i : ℚ) * dx a b n) + (a + ((i + 1 : ℕ) : ℚ) * dx a b n)) / 2)) := by
  simp only [heights]
  rw [x_vals_dropLast, x_vals_drop_one, zipWith_map_same, List.map_map]
  rfl

theorem heights_trap (f : ℚ → ℚ) (a b : ℚ) (n : ℕ) :
    heights f Rule.Trapezoid (x_vals a b n)
      = (List.range n).map
          (fun i : ℕ =>
            (f (a + (i : ℚ) * dx a b n) + f (a + ((i + 1 : ℕ) : ℚ) * dx a b n)) / 2) := by
  simp only [heights]
  rw [x_vals_dropLast, x_vals_drop_one, List.map_map, List.map_map, zipWith_map_same]
  rfl

theorem heights_length (f : ℚ → ℚ) (m : Rule) (a b : ℚ) (n : ℕ) :
    (heights f m (x_vals a b n)).length = n := by
  cases m with
  | Left => rw [heights_left]; simp
  | Right => rw [heights_right]; simp
  | Midpoint => rw [heights_mid]; simp
  | Trapezoid => rw [heights_trap]; simp

/-! ## Helper lemmas about `cumsum` -/

theorem cumsumFrom_length (l : List ℚ) : ∀ acc : ℚ, (cumsumFrom acc l).length = l.length := by
  induction l with
  | nil => intro acc; rfl
  | cons h t ih => intro acc; simp [cumsumFrom, ih]

theorem cumsum_length (l : List ℚ) : (cumsum l).length = l.length :=
  cumsumFrom_length l 0

theorem cumsumFrom_getElem (l : List ℚ) :
    ∀ (acc : ℚ) (i : ℕ), i < l.length →
      (cumsumFrom acc l)[i]? = some (acc + (l.take (i + 1)).sum) := by
  induction l with
  | nil => intro acc i hi; simp at hi
  | cons h t ih =>
      intro acc i hi
      cases i with
      | zero => simp [cumsumFrom]
      | succ j =>
          have hj : j < t.length := by simpa using hi
          simp [cumsumFrom, ih (acc + h) j hj, add_assoc]

theorem cumsum_getElem (l : List ℚ) (i : ℕ) (hi : i < l.length) :
    (cumsum l)[i]? = some ((l.take (i + 1)).sum) := by
  simpa using cumsumFrom_getElem l 0 i hi

theorem cumsum_head (l : List ℚ) : (cumsum l)[0]? = l[0]? := by
  cases l with
  | nil => rfl
  | cons h t => simp [cumsum, cumsumFrom]

theorem sum_take_getElem (l : List ℚ) (i : ℕ) (hi : i < l.length) :
    (l.take (i + 1)).sum = (l.take i).sum + l[i] := by
  rw [List.take_succ, List.sum_append, List.getElem?_eq_getElem hi]
  simp

theorem cumsum_step (l : List ℚ) (j : ℕ) (hj : j + 1 < l.length) :
    (cumsum l)[j + 1]? = Option.map₂ (fun u v => u + v) ((cumsum l)[j]?) (l[j + 1]?) := by
  rw [cumsum_getElem l (j + 1) hj, cumsum_getElem l j (by omega),
    List.getElem?_eq_getElem hj, sum_take_getElem l (j + 1) hj]
  rfl

theorem cumsumFrom_getLastD (l : List ℚ) :
    ∀ acc d : ℚ, l ≠ [] → (cumsumFrom acc l).getLastD d = acc + l.sum := by
  induction l with
  | nil => intro acc d h; exact absurd rfl h
  | cons h t ih =>
      intro acc d _
      cases t with
      | nil => simp [cumsumFrom]
      | cons h₂ t₂ =>
          rw [show cumsumFrom acc (h :: h₂ :: t₂)
                = (acc + h) :: cumsumFrom (acc + h) (h₂ :: t₂) from rfl,
            List.getLastD_cons, ih (acc + h) (acc + h) (by simp)]
          simp [add_assoc]

theorem total_integral_cumsum (l : List ℚ) : total_integral (cumsum l) = l.sum := by
  cases l with
  | nil => rfl
  | cons h t =>
      have h₀ := cumsumFrom_getLastD (h :: t) 0 0 (by simp)
      simpa [total_integral, cumsum] using h₀

/-! ## Sum helpers -/

theorem sum_map_mul_const (l : List ℚ) (d : ℚ) :
    (l.map (fun h => h * d)).sum = l.sum * d := by
  induction l with
  | nil => simp
  | cons h t ih => simp [ih, add_mul]

theorem sum_map_avg {α : Type} (u v : α → ℚ) (l : List α) :
    (l.map (fun x => (u x + v x) / 2)).sum = ((l.map u).sum + (l.map v).sum) / 2 := by
  induction l with
  | nil => simp
  | cons h t ih =>
      simp only [List.map_cons, List.sum_cons, ih]
      ring

/-! ## Unfolding the fields of `integrate` -/

theorem integrate_partition (f : ℚ → ℚ) (a b : ℚ) (n : ℕ) (m : Rule) :
    (integrate f a b n m).partition = x_vals a b n := rfl

theorem integrate_heights (f : ℚ → ℚ) (a b : ℚ) (n : ℕ) (m : Rule) :
    (integrate f a b n m).heights = heights f m (x_vals a b n) := rfl

theorem integrate_areas (f : ℚ → ℚ) (a b : ℚ) (n : ℕ) (m : Rule) :
    (integrate f a b n m).areas = areas (heights f m (x_vals a b n)) (dx a b n) := rfl

theorem integrate_cumulativeTrace (f : ℚ → ℚ) (a b : ℚ) (n : ℕ) (m : Rule) :
    (integrate f a b n m).cumulativeTrace
      = cumsum (areas (heights f m (x_vals a b n)) (dx a b n)) := rfl

theorem integrate_total (f : ℚ → ℚ) (a b : ℚ) (n : ℕ) (m : Rule) :
    (integrate f a b n m).total
      = total_integral (cumsum (areas (heights f m (x_vals a b n)) (dx a b n))) := rfl

/-! ## Claims -/

/-- C1: for every numeric function `f`, bounds `a`, `b`, and subdivision count
`n ≥ 1`, the heights array of lines 38-45 follows the spec's rule table on
each subinterval `i < n`: Left samples `x_i`, Right samples `x_{i+1}`,
Midpoint samples `(x_i + x_{i+1})/2`, and Trapezoid averages `f(x_i)` and
`f(x_{i+1})`, where `x_i = a + i·Δx` is the `i`-th partition entry (the first
two conjuncts identify `x_i` and `x_{i+1}` as exactly those partition
entries). -/
theorem heights_follow_rule_table (f : ℚ → ℚ) (a b : ℚ) (n : ℕ) (hn : 1 ≤ n)
    (i : ℕ) (hi : i < n) :
    (x_vals a b n)[i]? = some (a + (i : ℚ) * dx a b n) ∧
    (x_vals a b n)[i + 1]? = some (a + ((i + 1 : ℕ) : ℚ) * dx a b n) ∧
    (heights f Rule.Left (x_vals a b n))[i]? = some (f (a + (i : ℚ) * dx a b n)) ∧
    (heights f Rule.Right (x_vals a b n))[i]?
      = some (f (a + ((i + 1 : ℕ) : ℚ) * dx a b n)) ∧
    (heights f Rule.Midpoint (x_vals a b n))[i]?
      = some (f (((a + (i : ℚ) * dx a b n) + (a + ((i + 1 : ℕ) : ℚ) * dx a b n)) / 2)) ∧
    (heights f Rule.Trapezoid (x_vals a b n))[i]?
      = some ((f (a + (i : ℚ) * dx a b n) + f (a + ((i + 1 : ℕ) : ℚ) * dx a b n)) / 2) := by
  refine ⟨x_vals_getElem a b n (by omega), x_vals_getElem a b n (by omega), ?_, ?_, ?_, ?_⟩
  · rw [heights_left, List.getElem?_map, List.getElem?_range hi]; rfl
  · rw [heights_right, List.getElem?_map, List.getElem?_range hi]; rfl
  · rw [heights_mid, List.getElem?_map, List.getElem?_range hi]; rfl
  · rw [heights_trap, List.getElem?_map, List.getElem?_range hi]; rfl

/-- Witness for C1 at `f(x) = x²`, `a = 0`, `b = 5`, `n = 5`, `i = 2`
(subinterval `[2, 3]`): Left gives `4`, Right gives `9`, Midpoint gives
`(5/2)² = 25/4`, Trapezoid gives `(4 + 9)/2 = 13/2`. -/
theorem heights_follow_rule_table_witness :
    (heights (fun x => x * x) Rule.Left (x_vals 0 5 5))[2]? = some 4 ∧
    (heights (fun x => x * x) Rule.Right (x_vals 0 5 5))[2]? = some 9 ∧
    (heights (fun x => x * x) Rule.Midpoint (x_vals 0 5 5))[2]? = some (25 / 4) ∧
    (heights (fun x => x * x) Rule.Trapezoid (x_vals 0 5 5))[2]? = some (13 / 2) := by
  obtain ⟨-, -, h₁, h₂, h₃, h₄⟩ :=
    heights_follow_rule_table (fun x => x * x) 0 5 5 (by norm_num) 2 (by norm_num)
  refine ⟨?_, ?_, ?_, ?_⟩
  · rw [h₁]; norm_num [dx]
  · rw [h₂]; norm_num [dx]
  · rw [h₃]; norm_num [dx]
  · rw [h₄]; norm_num [dx]

/-- C2: the partition built at line 35 has exactly `n+1` entries
`x_i = a + i·Δx`; its first entry is `a` and its last entry is `b`; it is
strictly increasing when `a < b`, strictly decreasing when `b < a`, and
constant (all entries `a`) when `a = b`. -/
theorem partition_spec (a b : ℚ) (n : ℕ) (hn : 1 ≤ n) (i : ℕ) (hi : i ≤ n) :
    (x_vals a b n).length = n + 1 ∧
    (x_vals a b n)[i]? = some (a + (i : ℚ) * dx a b n) ∧
    (x_vals a b n)[0]? = some a ∧
    (x_vals a b n)[n]? = some b ∧
    (a < b → (x_vals a b n).Pairwise (· < ·)) ∧
    (b < a → (x_vals a b n).Pairwise (· > ·)) ∧
    (a = b → x_vals a b n = List.replicate (n + 1) a) := by
  have hn0 : (n : ℚ) ≠ 0 := Nat.cast_ne_zero.mpr (by omega)
  have hnpos : (0 : ℚ) < (n : ℚ) := by
    exact_mod_cast Nat.pos_of_ne_zero (by omega)
  refine ⟨x_vals_length a b n, x_vals_getElem a b n hi, ?_, ?_, ?_, ?_, ?_⟩
  · rw [x_vals_getElem a b n (Nat.zero_le n)]; norm_num
  · rw [x_vals_getElem a b n le_rfl, dx]
    congr 1
    field_simp
  · intro hab
    have hd : 0 < (b - a) / (n : ℚ) := div_pos (by linarith) hnpos
    rw [x_vals]
    refine List.Pairwise.map _ ?_ (List.pairwise_lt_range (n + 1))
    intro p q hpq
    have hq : (p : ℚ) < q := by exact_mod_cast hpq
    have := mul_lt_mul_of_pos_right hq hd
    linarith
  · intro hab
    have hd : (b - a) / (n : ℚ) < 0 :=
      div_neg_of_neg_of_pos (by linarith) hnpos
    rw [x_vals]
    refine List.Pairwise.map _ ?_ (List.pairwise_lt_range (n + 1))
    intro p q hpq
    have hq : (p : ℚ) < q := by exact_mod_cast hpq
    have := mul_lt_mul_of_neg_right hq hd
    simp only [gt_iff_lt]
    linarith
  · intro hab
    subst hab
    simp [x_vals, List.map_const']

/-- Witness for C2 at `a = 0`, `b = 5`, `n = 5`, `i = 3`: six entries, the
fourth entry is `3`, the endpoints are `0` and `5`, and the partition is
strictly increasing. -/
theorem partition_spec_witness :
    (x_vals 0 5 5).length = 6 ∧
    (x_vals 0 5 5)[3]? = some 3 ∧
    (x_vals 0 5 5)[0]? = some 0 ∧
    (x_vals 0 5 5)[5]? = some 5 ∧
    (x_vals 0 5 5).Pairwise (· < ·) := by
  obtain ⟨h₁, h₂, h₃, h₄, h₅, -, -⟩ := partition_spec 0 5 5 (by norm_num) 3 (by norm_num)
  refine ⟨h₁, ?_, h₃, h₄, h₅ (by norm_num)⟩
  rw [h₂]; norm_num [dx]

/-- C3: areas are heights scaled by `Δx` entrywise (line 47); the cumulative
trace (line 48) is the inclusive prefix sum of the areas — its first entry is
the first area and each later entry adds the corresponding area to the
previous entry; and the entry at position `n-1` (the last one) is the scalar
total of line 49. -/
theorem cumulative_trace_spec (f : ℚ → ℚ) (a b : ℚ) (n : ℕ) (m : Rule) (hn : 1 ≤ n)
    (i : ℕ) (hi : i < n) :
    (integrate f a b n m).areas[i]?
      = Option.map (fun h => h * dx a b n) ((integrate f a b n m).heights[i]?) ∧
    (integrate f a b n m).cumulativeTrace[0]? = (integrate f a b n m).areas[0]? ∧
    (0 < i →
      (integrate f a b n m).cumulativeTrace[i]?
        = Option.map₂ (fun u v => u + v)
            ((integrate f a b n m).cumulativeTrace[i - 1]?)
            ((integrate f a b n m).areas[i]?)) ∧
    (integrate f a b n m).cumulativeTrace[n - 1]? = some ((integrate f a b n m).total) := by
  have hlen : (areas (heights f m (x_vals a b n)) (dx a b n)).length = n := by
    simp [areas, heights_length]
  refine ⟨?_, ?_, ?_, ?_⟩
  · rw [integrate_areas, integrate_heights, areas, List.getElem?_map]
  · rw [integrate_cumulativeTrace, integrate_areas, cumsum_head]
  · intro h0
    obtain ⟨j, rfl⟩ : ∃ j, i = j + 1 := ⟨i - 1, by omega⟩
    rw [integrate_cumulativeTrace, integrate_areas]
    have hstep := cumsum_step (areas (heights f m (x_vals a b n)) (dx a b n)) j
      (by rw [hlen]; exact hi)
    simpa using hstep
  · rw [integrate_cumulativeTrace, integrate_total, total_integral_cumsum,
      cumsum_getElem _ (n - 1) (by rw [hlen]; omega)]
    congr 1
    rw [show n - 1 + 1 = n from by omega, List.take_of_length_le (le_of_eq hlen)]

/-- Witness for C3 at `f(x) = x²`, `a = 0`, `b = 5`, `n = 5`,
rule Trapezoid, `i = 2` (the spec's concrete scenario 3, where `Δx = 1`). -/
theorem cumulative_trace_spec_witness :
    (integrate (fun x => x * x) 0 5 5 Rule.Trapezoid).areas[2]?
      = Option.map (fun h => h * dx 0 5 5)
          ((integrate (fun x => x * x) 0 5 5 Rule.Trapezoid).heights[2]?) ∧
    (integrate (fun x => x * x) 0 5 5 Rule.Trapezoid).cumulativeTrace[0]?
      = (integrate (fun x => x * x) 0 5 5 Rule.Trapezoid).areas[0]? ∧
    (0 < 2 →
      (integrate (fun x => x * x) 0 5 5 Rule.Trapezoid).cumulativeTrace[2]?
        = Option.map₂ (fun u v => u + v)
            ((integrate (fun x => x * x) 0 5 5 Rule.Trapezoid).cumulativeTrace[2 - 1]?)
            ((integrate (fun x => x * x) 0 5 5 Rule.Trapezoid).areas[2]?)) ∧
    (integrate (fun x => x * x) 0 5 5 Rule.Trapezoid).cumulativeTrace[5 - 1]?
      = some ((integrate (fun x => x * x) 0 5 5 Rule.Trapezoid).total) :=
  cumulative_trace_spec (fun x => x * x) 0 5 5 Rule.Trapezoid (by norm_num) 2 (by norm_num)

/-- C4: the scalar total equals `Δx` times the sum of the heights array —
computing per-step areas and prefix-summing them agrees with factoring `Δx`
out of the sum. -/
theorem total_eq_dx_mul_sum (f : ℚ → ℚ) (a b : ℚ) (n : ℕ) (m : Rule) (hn : 1 ≤ n) :
    (integrate f a b n m).total = dx a b n * ((integrate f a b n m).heights).sum := by
  rw [integrate_total, integrate_heights, total_integral_cumsum]
  simp only [areas]
  rw [sum_map_mul_const, mul_comm]

/-- Witness for C4 at `f(x) = x²`, `a = 0`, `b = 5`, `n = 5`, rule Trapezoid:
both sides evaluate to `85/2 = 42.5` (the spec's concrete scenario 3). -/
theorem total_eq_dx_mul_sum_witness :
    (integrate (fun x => x * x) 0 5 5 Rule.Trapezoid).total = 85 / 2 ∧
    dx 0 5 5 * ((integrate (fun x => x * x) 0 5 5 Rule.Trapezoid).heights).sum = 85 / 2 := by
  have h := total_eq_dx_mul_sum (fun x => x * x) 0 5 5 Rule.Trapezoid (by norm_num)
  have he : (integrate (fun x => x * x) 0 5 5 Rule.Trapezoid).total = 85 / 2 := by
    norm_num [integrate, heights, x_vals, areas, cumsum, cumsumFrom, total_integral, dx,
      List.range_succ]
  exact ⟨he, by rw [← h]; exact he⟩

/-- C5: length invariant over every rule and valid input: `heights`, `areas`
and `cumulativeTrace` have length exactly `n`, and the partition has length
exactly `n + 1`. -/
theorem array_lengths_spec (f : ℚ → ℚ) (a b : ℚ) (n : ℕ) (m : Rule) (hn : 1 ≤ n) :
    (integrate f a b n m).heights.length = n ∧
    (integrate f a b n m).areas.length = n ∧
    (integrate f a b n m).cumulativeTrace.length = n ∧
    (integrate f a b n m).partition.length = n + 1 := by
  refine ⟨?_, ?_, ?_, ?_⟩
  · rw [integrate_heights]; exact heights_length f m a b n
  · rw [integrate_areas, areas, List.length_map]; exact heights_length f m a b n
  · rw [integrate_cumulativeTrace, cumsum_length, areas, List.length_map]
    exact heights_length f m a b n
  · rw [integrate_partition]; exact x_vals_length a b n

/-- Witness for C5 at `f(x) = x²`, `a = 0`, `b = 5`, `n = 10`, rule
Midpoint. -/
theorem array_lengths_spec_witness :
    (integrate (fun x => x * x) 0 5 10 Rule.Midpoint).heights.length = 10 ∧
    (integrate (fun x => x * x) 0 5 10 Rule.Midpoint).areas.length = 10 ∧
    (integrate (fun x => x * x) 0 5 10 Rule.Midpoint).cumulativeTrace.length = 10 ∧
    (integrate (fun x => x * x) 0 5 10 Rule.Midpoint).partition.length = 10 + 1 :=
  array_lengths_spec (fun x => x * x) 0 5 10 Rule.Midpoint (by norm_num)

/-- C6 (evidence of the code bug): at the spec's error-scenario input
`functionText = "y+1"`, `sympify` succeeds and `lambdify` defers the unknown
symbol, so the `except (SympifyError, TypeError)` branch is never taken and no
zero fallback is installed; the vectorized evaluation of the heights then
raises an uncaught `NameError` and the pipeline produces no total at all.  By
contrast a genuinely unparseable input (modelled by `none`, i.e. a raised
`SympifyError`) does take the fallback path and yields total `0` as the claim
describes. -/
theorem yPlusOne_not_caught :
    runPipeline (some yPlusOne) 0 5 1 Rule.Left
      = Except.error "NameError: name y is not defined" ∧
    runPipeline none 0 5 1 Rule.Left = Except.ok 0 := by
  constructor
  · have hy : "y" ≠ "x" := by decide
    norm_num [runPipeline, heightsE, x_vals, List.range_succ, mapExcept, f_lambdified,
      yPlusOne, evalSym, hy]
    rfl
  · norm_num [runPipeline, heightsE, x_vals, List.range_succ, mapExcept, f_lambdified,
      areas, cumsum, cumsumFrom, total_integral, dx]

/-- C7 counterexample: invoked directly with `n = 0` (and, say, `a = 0`,
`b = 5`), the calculations block does not signal any
`InvalidSubdivisionCount`: line 35 first builds the one-point partition
`np.linspace(0, 5, 1) = [0]`, and line 36 then raises `ZeroDivisionError` at
`(b - a) / n` — contradicting the claim that no partition is produced and no
division by zero occurs. -/
theorem n_zero_not_rejected :
    x_vals 0 5 0 = [0] ∧
    dxE 0 5 0 = Except.error "ZeroDivisionError: float division by zero" := by
  constructor
  · norm_num [x_vals, List.range_succ]
  · rfl

/-- C7 amended: `n = 0` never reaches the summation algorithm, because the
slider at line 19 constrains its value to `[1, 500]`; for every value the
widget can hand over, `n ≥ 1` holds and the division at line 36 succeeds,
producing `Δx = (b-a)/n`. -/
theorem slider_guards_subdivisions (v : ℤ) (a b : ℚ) :
    1 ≤ slider 1 500 v ∧
    dxE a b (slider 1 500 v).toNat = Except.ok (dx a b (slider 1 500 v).toNat) := by
  have h1 : (1 : ℤ) ≤ slider 1 500 v := le_max_left 1 (min 500 v)
  have h2 : (slider 1 500 v).toNat ≠ 0 := by omega
  exact ⟨h1, by simp only [dxE, dx, if_neg h2]⟩

/-- C8: with equal bounds `b = a` the computation succeeds degenerately:
`Δx = 0`, every partition entry equals `a`, every area is `0`, and the total
is `0`. -/
theorem equal_bounds_degenerate (f : ℚ → ℚ) (a : ℚ) (n : ℕ) (m : Rule) (hn : 1 ≤ n) :
    dx a a n = 0 ∧
    (integrate f a a n m).partition = List.replicate (n + 1) a ∧
    (integrate f a a n m).areas = List.replicate n 0 ∧
    (integrate f a a n m).total = 0 := by
  have hdx : dx a a n = 0 := by simp [dx]
  have hareas : areas (heights f m (x_vals a a n)) (dx a a n) = List.replicate n 0 := by
    rw [hdx, areas]
    have hz : (heights f m (x_vals a a n)).map (fun h => h * 0)
        = (heights f m (x_vals a a n)).map (fun _ => 0) := by simp
    rw [hz, List.map_const', heights_length]
  refine ⟨hdx, ?_, ?_, ?_⟩
  · rw [integrate_partition]
    simp [x_vals, List.map_const']
  · rw [integrate_areas]; exact hareas
  · rw [integrate_total, hareas, total_integral_cumsum]
    simp

/-- Witness for C8 at `f(x) = x²`, `a = b = 2`, `n = 3`, rule Midpoint. -/
theorem equal_bounds_degenerate_witness :
    dx 2 2 3 = 0 ∧
    (integrate (fun x => x * x) 2 2 3 Rule.Midpoint).partition = List.replicate (3 + 1) 2 ∧
    (integrate (fun x => x * x) 2 2 3 Rule.Midpoint).areas = List.replicate 3 0 ∧
    (integrate (fun x => x * x) 2 2 3 Rule.Midpoint).total = 0 :=
  equal_bounds_degenerate (fun x => x * x) 2 3 Rule.Midpoint (by norm_num)

/-- C9: the calculations block is a pure function of its five inputs — its
embedding reads no state besides `f`, `a`, `b`, `n` and the method — so
invoking it twice with identical inputs yields identical outputs (the two
components of `integrateTwice` are one and the same record: same partition,
heights, areas, cumulative trace and total). -/
theorem integrate_deterministic (f : ℚ → ℚ) (a b : ℚ) (n : ℕ) (m : Rule) :
    (integrateTwice f a b n m).1 = (integrateTwice f a b n m).2 := rfl

/-- The sum of the Trapezoid heights is the mean of the sums of the Left and
Right heights, because each Trapezoid height averages the corresponding Left
and Right heights. -/
theorem sum_heights_trap (f : ℚ → ℚ) (a b : ℚ) (n : ℕ) :
    (heights f Rule.Trapezoid (x_vals a b n)).sum
      = ((heights f Rule.Left (x_vals a b n)).sum
          + (heights f Rule.Right (x_vals a b n)).sum) / 2 := by
  rw [heights_left, heights_right, heights_trap]
  exact sum_map_avg _ _ _

/-- C10: over exact arithmetic, the Trapezoid total is the arithmetic mean of
the Left and Right totals on the same `f`, `a`, `b`, `n`. -/
theorem trapezoid_mean_left_right (f : ℚ → ℚ) (a b : ℚ) (n : ℕ) (hn : 1 ≤ n) :
    (integrate f a b n Rule.Trapezoid).total
      = ((integrate f a b n Rule.Left).total
          + (integrate f a b n Rule.Right).total) / 2 := by
  simp only [integrate_total, total_integral_cumsum, areas, sum_map_mul_const,
    sum_heights_trap]
  ring

/-- Witness for C10 at `f(x) = x²`, `a = 0`, `b = 5`, `n = 1`: the Left total
is `0` and the Right total is `125` (the spec's concrete scenarios 1 and 2),
and the Trapezoid total is their mean `125/2`. -/
theorem trapezoid_mean_left_right_witness :
    (integrate (fun x => x * x) 0 5 1 Rule.Left).total = 0 ∧
    (integrate (fun x => x * x) 0 5 1 Rule.Right).total = 125 ∧
    (integrate (fun x => x * x) 0 5 1 Rule.Trapezoid).total = 125 / 2 := by
  have h := trapezoid_mean_left_right (fun x => x * x) 0 5 1 (by norm_num)
  have hL : (integrate (fun x => x * x) 0 5 1 Rule.Left).total = 0 := by
    norm_num [integrate, heights, x_vals, areas, cumsum, cumsumFrom, total_integral, dx,
      List.range_succ]
  have hR : (integrate (fun x => x * x) 0 5 1 Rule.Right).total = 125 := by
    norm_num [integrate, heights, x_vals, areas, cumsum, cumsumFrom, total_integral, dx,
      List.range_succ]
  refine ⟨hL, hR, ?_⟩
  rw [h, hL, hR]
  norm_num
